import Mathlib

/-!
Verification of the github-sentinel repository against its natural-language
specification.  The Python source is shallowly embedded: pure functions become
Lean functions, the mutable subscription list becomes explicit state passing,
exceptions become `Except`, and the two bounded `queue.Queue` objects become
lists with an explicit capacity check.
-/

namespace Sentinel

/-! ## Data model (subscription_manager.py, command_handler.py) -/

/-- The closed set of valid watch events
(`valid_events` in subscription_manager.py / `self.valid_events` in
command_handler.py). -/
def validEvents : List String := ["commits", "pull_requests", "issues", "releases"]

/-- One subscription entry: the dict
`{"owner": ..., "repo": ..., "watch_events": ...}` kept in
`SubscriptionManager.subscriptions`. -/
structure Subscription where
  owner : String
  repo : String
  watch_events : List String
deriving DecidableEq

/-- `SubscriptionManager.get_subscription`: first entry whose owner and repo
both match (the Python method returns a value-equal copy of that dict). -/
def getSubscription (subs : List Subscription) (owner repo : String) :
    Option Subscription :=
  subs.find? (fun s => s.owner == owner && s.repo == repo)

/-- Result of one SubscriptionManager operation: the returned bool, the
subscription list afterwards, and the lists handed to
`config_manager.update_config` (the persistence writes). -/
structure OpResult where
  ok : Bool
  subs : List Subscription
  writes : List (List Subscription)
deriving DecidableEq

/-- `SubscriptionManager.add_subscription`: validate every event against the
closed set, then dedup by (owner, repo), then append and persist. -/
def addSubscription (subs : List Subscription) (owner repo : String)
    (watch_events : List String) : OpResult :=
  if !(watch_events.all fun e => validEvents.contains e) then
    ⟨false, subs, []⟩
  else if (getSubscription subs owner repo).isSome then
    ⟨false, subs, []⟩
  else
    let newList := subs ++ [⟨owner, repo, watch_events⟩]
    ⟨true, newList, [newList]⟩

/-- Python `list.remove`: delete the first element equal (by value) to the
target; the target is always present where the source calls this. -/
def removeFirst (subs : List Subscription) (target : Subscription) :
    List Subscription :=
  match subs with
  | [] => []
  | x :: xs => if x = target then xs else x :: removeFirst xs target

/-- `SubscriptionManager.remove_subscription`: fail (no write) when the key is
absent, otherwise remove the found entry and persist. -/
def removeSubscription (subs : List Subscription) (owner repo : String) :
    OpResult :=
  match getSubscription subs owner repo with
  | none => ⟨false, subs, []⟩
  | some sub =>
    let newList := removeFirst subs sub
    ⟨true, newList, [newList]⟩

/-- `SubscriptionManager.update_subscription_events`: fail when the key is
absent or an event is invalid.  On the success path the Python code assigns
into the dict returned by `get_subscription`, which is a `copy()`, so the
stored list is left unchanged and `update_config` rewrites it as-is. -/
def updateSubscriptionEvents (subs : List Subscription) (owner repo : String)
    (new_watch_events : List String) : OpResult :=
  match getSubscription subs owner repo with
  | none => ⟨false, subs, []⟩
  | some _ =>
    if !(new_watch_events.all fun e => validEvents.contains e) then
      ⟨false, subs, []⟩
    else
      ⟨true, subs, [subs]⟩

/-- Number of stored entries with the given (owner, repo) key. -/
def countKey (subs : List Subscription) (owner repo : String) : Nat :=
  (subs.filter (fun s => s.owner == owner && s.repo == repo)).length

/-- Two entries differ in their (owner, repo) key. -/
def keyDistinct (a b : Subscription) : Prop :=
  ¬(a.owner = b.owner ∧ a.repo = b.repo)

/-- The implicit store invariant: every entry watches only valid events and
the (owner, repo) keys are pairwise distinct. -/
def ValidStore (subs : List Subscription) : Prop :=
  (∀ sub ∈ subs, ∀ e ∈ sub.watch_events, e ∈ validEvents) ∧
  List.Pairwise keyDistinct subs

/-- One operation of the SubscriptionManager surface. -/
inductive SMOp where
  | add (owner repo : String) (events : List String)
  | remove (owner repo : String)
  | update (owner repo : String) (events : List String)

/-- State reached after one operation (the returned bool is discarded). -/
def applyOp (subs : List Subscription) : SMOp → List Subscription
  | .add o r ev => (addSubscription subs o r ev).subs
  | .remove o r => (removeSubscription subs o r).subs
  | .update o r ev => (updateSubscriptionEvents subs o r ev).subs

/-- State reached after a sequence of operations. -/
def runOps (subs : List Subscription) (ops : List SMOp) : List Subscription :=
  ops.foldl applyOp subs

/-! ## Commands and the input-line parser (command_handler.py, main.py) -/

/-- `CommandType` enum of command_handler.py. -/
inductive CommandType where
  | add | remove | list | fetch | exit | help
deriving DecidableEq

/-- The `Command` dataclass.  The `callback` field of the Python dataclass is
omitted: nothing in the repository ever sets or reads it. -/
structure Command where
  type : CommandType
  owner : Option String := none
  repo : Option String := none
  events : Option (List String) := none
deriving DecidableEq

/-- Outcome of `parse_input_line` in main.py: `none` for an empty line,
a `Command`, or an error message put on the result queue (with `None`
returned, so nothing is enqueued on the command queue). -/
inductive ParseOutcome where
  | noop
  | cmd (c : Command)
  | err (msg : String)
deriving DecidableEq

def addUsageMsg : String :=
  "错误：add 命令格式错误！正确格式：add <所有者> <仓库> --events <事件1> <事件2>..."

def addMissingArgsMsg : String := "错误：add 命令缺少必要参数！"

def removeUsageMsg : String :=
  "错误：remove 命令格式错误！正确格式：remove <所有者> <仓库>"

/-- Index of the first occurrence of `t` (Python `list.index`; only called
after a membership check in the source). -/
def firstIdx (parts : List String) (t : String) : Nat :=
  match parts with
  | [] => 0
  | x :: xs => if x = t then 0 else firstIdx xs t + 1

/-- The `add` arm of `parse_input_line` (main.py lines 44-60);
`firstIdx parts "--events"` is the `events_idx = parts.index("--events")` of
the source. -/
def parseAdd (parts : List String) : ParseOutcome :=
  if parts.length < 5 ∨ ¬ parts.contains "--events" then .err addUsageMsg
  else if firstIdx parts "--events" < 3 then .err addMissingArgsMsg
  else .cmd { type := .add, owner := some (parts.getD 1 ""),
              repo := some (parts.getD 2 ""),
              events := some (parts.drop (firstIdx parts "--events" + 1)) }

/-- The `remove` arm of `parse_input_line` (main.py lines 62-73). -/
def parseRemove (parts : List String) : ParseOutcome :=
  if parts.length ≠ 3 then .err removeUsageMsg
  else .cmd { type := .remove, owner := some (parts.getD 1 ""),
              repo := some (parts.getD 2 "") }

/-- Python `str.lower` (character-wise; the recognized command words are
ASCII). -/
def lowerString (s : String) : String := String.mk (s.toList.map Char.toLower)

/-- `parse_input_line` on the whitespace-split token list. -/
def parseTokens : List String → ParseOutcome
  | [] => .noop
  | first :: rest =>
    let c := lowerString first
    if c = "help" then .cmd { type := .help }
    else if c = "exit" then .cmd { type := .exit }
    else if c = "fetch" then .cmd { type := .fetch }
    else if c = "list" then .cmd { type := .list }
    else if c = "add" then parseAdd (first :: rest)
    else if c = "remove" then parseRemove (first :: rest)
    else .err ("错误：未知命令 \x27" ++ c ++ "\x27，输入 help 查看支持的命令")

/-- Splitter for Python `str.split()` with no argument: break at whitespace
runs, dropping empty pieces (this also subsumes the preceding
`line.strip()`). -/
def wordsAux : List Char → List Char → List String
  | [], acc => if acc.isEmpty then [] else [String.mk acc.reverse]
  | ch :: cs, acc =>
    if ch.isWhitespace then
      if acc.isEmpty then wordsAux cs []
      else String.mk acc.reverse :: wordsAux cs []
    else wordsAux cs (ch :: acc)

/-- `line.strip()` followed by `line.split()`. -/
def tokenize (line : String) : List String := wordsAux line.toList []

/-- `parse_input_line` of main.py. -/
def parseInputLine (line : String) : ParseOutcome :=
  parseTokens (tokenize line)

/-! ## The bounded queues (main.py lines 19-20, 90-116) -/

/-- `Queue(maxsize=10)` for both COMMAND_QUEUE and RESULT_QUEUE. -/
def queueCapacity : Nat := 10

/-- `Queue.put_nowait`: raise `queue.Full` when the queue already holds
`maxsize` items, otherwise append. -/
def putNowait {α : Type} (q : List α) (x : α) : Except Unit (List α) :=
  if queueCapacity ≤ q.length then .error () else .ok (q ++ [x])

/-- `Queue.put` with the default `block=True` and no timeout: when the queue
is full the producer blocks until space appears (parse_input_line reports its
errors with this blocking call). -/
inductive PutOutcome (α : Type) where
  | enqueued (q : List α)
  | blocked
deriving DecidableEq

def putBlocking {α : Type} (q : List α) (x : α) : PutOutcome α :=
  if queueCapacity ≤ q.length then .blocked else .enqueued (q ++ [x])

/-- In Python 3 the `Full` exception class lives at module level in `queue`
(the source imports only `Queue` and `Empty` from it); the `Queue` class has
no attribute named `Full`, so evaluating the handler expression `Queue.Full`
in `except Queue.Full:` raises `AttributeError` instead of matching. -/
def queueClassHasFullAttr : Bool := false

/-- What the operator observes when `input_listener` (main.py lines 100-107)
enqueues a parsed command. -/
inductive EnqueueOutcome where
  | queued (q : List Command)
  | fullMessage
  | uncaughtException
deriving DecidableEq

/-- The `try: COMMAND_QUEUE.put_nowait(cmd) except Queue.Full: print(...)`
block of input_listener.  When `put_nowait` raises, the except clause only
handles it if `Queue.Full` resolves to the raised class; since the `Queue`
class has no `Full` attribute the lookup itself fails and the exception
escapes the listener. -/
def inputListenerEnqueue (q : List Command) (c : Command) : EnqueueOutcome :=
  match putNowait q c with
  | .ok q' => .queued q'
  | .error _ =>
    if queueClassHasFullAttr then .fullMessage
    else .uncaughtException

/-! ## Update processing (data_processor.py) -/

/-- The four event-kind keys checked by `DataProcessor.process_updates`,
in source order. -/
def eventKinds : List String := ["commits", "pull_requests", "issues", "releases"]

/-- One raw per-repository update bundle as returned by
`GitHubAPIClient.fetch_repo_updates`: the `events` dict maps an event kind to
the raw item list.  Individual items (commit/PR/issue/release dicts) are
modelled as opaque ids, since the claims depend only on their presence. -/
structure RawUpdate where
  owner : String
  repo : String
  update_time : String
  events : List (String × List Nat)
deriving DecidableEq

/-- Dict lookup `raw_updates["events"].get(k)`. -/
def lookupEvents (events : List (String × List Nat)) (k : String) :
    Option (List Nat) :=
  (events.find? (fun p => p.1 == k)).map (·.2)

/-- The processed bundle built by `process_updates`. -/
structure ProcessedUpdate where
  owner : String
  repo : String
  update_time : String
  events : List (String × List Nat)
deriving DecidableEq

/-- Per-item extraction (`_process_commit` etc.) projects dict fields; on
opaque item ids it is the identity. -/
def processItem (n : Nat) : Nat := n

/-- `DataProcessor.process_updates`: keep an event kind only when the key is
present and its list is truthy (non-empty), mapping each item. -/
def processUpdates (raw : RawUpdate) : ProcessedUpdate :=
  { owner := raw.owner, repo := raw.repo, update_time := raw.update_time,
    events := eventKinds.filterMap (fun k =>
      match lookupEvents raw.events k with
      | some items => if items.isEmpty then none else some (k, items.map processItem)
      | none => none) }

/-- `DataProcessor.batch_process_updates`. -/
def batchProcessUpdates (raws : List RawUpdate) : List ProcessedUpdate :=
  raws.map processUpdates

/-- `DataProcessor.filter_empty_updates`: keep bundles with any truthy
event list. -/
def filterEmptyUpdates (l : List ProcessedUpdate) : List ProcessedUpdate :=
  l.filter (fun u => u.events.any (fun p => !p.2.isEmpty))

/-! ## The immediate fetch path (command_handler.py lines 84-101),
instrumented to record collaborator contacts -/

/-- Trace of one `_fetch_immediate_updates` call: the returned string, the
subscriptions passed to `github_client.fetch_repo_updates`, and the
notifications delivered (channel name, payload). -/
structure FetchTrace where
  message : String
  clientCalls : List Subscription
  notifications : List (String × List ProcessedUpdate)
deriving DecidableEq

/-- `CommandHandler._fetch_immediate_updates`.  `ntype` is the configured
`notification.type`; the method never consults it because it calls
`notifier.send_console_notification` directly (console channel), not the
channel-dispatching `send_notification`. -/
def fetchImmediateUpdates (_ntype : String) (subs : List Subscription)
    (client : Subscription → RawUpdate) : FetchTrace :=
  if subs.isEmpty then
    { message := "暂无订阅仓库，无法获取更新", clientCalls := [], notifications := [] }
  else
    let raws := subs.map client
    let processed := batchProcessUpdates raws
    let filtered := filterEmptyUpdates processed
    if !filtered.isEmpty then
      { message := "正在获取 " ++ toString subs.length ++
          " 个仓库的更新...\n更新检查完成：" ++ toString filtered.length ++
          " 个仓库有更新（已在终端显示）",
        clientCalls := subs,
        notifications := [("console", filtered)] }
    else
      { message := "正在获取 " ++ toString subs.length ++
          " 个仓库的更新...\n更新检查完成：未检测到任何仓库的更新",
        clientCalls := subs,
        notifications := [] }

/-! ## CommandHandler.execute (command_handler.py lines 34-101),
with collaborators that may raise -/

/-- The collaborator surface used inside the try block of `execute`; each call may
raise (store persistence, network client, processor on malformed payloads,
notifier). -/
structure Collaborators where
  addSubscription : String → String → List String → Except String Bool
  removeSubscription : String → String → Except String Bool
  getAllSubscriptions : Except String (List Subscription)
  fetchRepoUpdates : Subscription → Except String RawUpdate
  batchProcess : List RawUpdate → Except String (List ProcessedUpdate)
  filterEmpty : List ProcessedUpdate → Except String (List ProcessedUpdate)
  sendConsoleNotification : List ProcessedUpdate → Except String Unit

/-- Python truthiness of the optional string fields (`None` and `""` are
falsy). -/
def optStrTruthy : Option String → Bool
  | none => false
  | some s => !s.isEmpty

/-- Python truthiness of the optional event list (`None` and `[]` are
falsy). -/
def optListTruthy : Option (List String) → Bool
  | none => false
  | some l => !l.isEmpty

/-- Comma-join list formatting used by the `list` arm. -/
def formatSubs (subs : List Subscription) : String :=
  ((subs.zip (List.range subs.length)).foldl (fun acc p =>
      acc ++ toString (p.2 + 1) ++ ". " ++ p.1.owner ++ "/" ++ p.1.repo ++
        "\n   监听事件：" ++ String.intercalate ", " p.1.watch_events ++ "\n")
    "已订阅仓库列表：\n")

/-- The static help text returned by `_get_help_text` (content abbreviated to
its first line; the claims do not depend on it). -/
def helpText : String := "GitHub Sentinel 交互式命令帮助"

/-- Body of `_fetch_immediate_updates` as run under the try block of `execute`:
every collaborator call may raise and the raise propagates to `execute`. -/
def fetchImmediateUpdatesE (c : Collaborators) : Except String String := do
  let subs ← c.getAllSubscriptions
  if subs.isEmpty then
    pure "暂无订阅仓库，无法获取更新"
  else do
    let raws ← subs.mapM c.fetchRepoUpdates
    let processed ← c.batchProcess raws
    let filtered ← c.filterEmpty processed
    if !filtered.isEmpty then do
      let _ ← c.sendConsoleNotification filtered
      pure ("正在获取 " ++ toString subs.length ++
        " 个仓库的更新...\n更新检查完成：" ++ toString filtered.length ++
        " 个仓库有更新（已在终端显示）")
    else
      pure ("正在获取 " ++ toString subs.length ++
        " 个仓库的更新...\n更新检查完成：未检测到任何仓库的更新")

/-- The try-block body of `CommandHandler.execute` (lines 37-80).  The
`CommandType` match is exhaustive, so the Python fallback arm for an unknown
variant is unreachable here. -/
def executeBody (c : Collaborators) (cmd : Command) : Except String String :=
  match cmd.type with
  | .add =>
    if !(optStrTruthy cmd.owner && optStrTruthy cmd.repo &&
         optListTruthy cmd.events) then
      pure "错误：添加订阅需指定 仓库所有者、仓库名称 和 监听事件（--events）"
    else
      let owner := cmd.owner.getD ""
      let repo := cmd.repo.getD ""
      let events := cmd.events.getD []
      let invalid := events.filter (fun e => !validEvents.contains e)
      if !invalid.isEmpty then
        pure ("错误：无效事件类型 " ++ toString invalid ++
          "，支持的事件：" ++ toString validEvents)
      else do
        let success ← c.addSubscription owner repo events
        pure (if success then "添加成功" else "添加失败（可能已订阅或参数错误）")
  | .remove =>
    if !(optStrTruthy cmd.owner && optStrTruthy cmd.repo) then
      pure "错误：删除订阅需指定 仓库所有者 和 仓库名称"
    else do
      let success ← c.removeSubscription (cmd.owner.getD "") (cmd.repo.getD "")
      pure (if success then "删除成功" else "删除失败（未找到订阅）")
  | .list => do
    let subs ← c.getAllSubscriptions
    if subs.isEmpty then pure "暂无订阅仓库" else pure (formatSubs subs)
  | .fetch => fetchImmediateUpdatesE c
  | .help => pure helpText
  | .exit => pure "正在退出程序..."

/-- Result of a Python call as seen by the caller. -/
inductive PyResult where
  | ret (s : String)
  | raised (e : String)
deriving DecidableEq

/-- `CommandHandler.execute`: the whole body runs under
`try: ... except Exception as e: return f"命令执行失败：..."`. -/
def execute (c : Collaborators) (cmd : Command) : PyResult :=
  match executeBody c cmd with
  | .ok s => .ret s
  | .error e => .ret ("命令执行失败：" ++ e)

/-! ## TaskScheduler (scheduler.py) and the scheduled task (main.py
lines 140-157) -/

/-- A cron job as registered with APScheduler: `day_of_week` is `none` for the
daily job; APScheduler counts Monday as day 0. -/
structure CronJob where
  id : String
  day_of_week : Option Nat
  hour : Nat
  minute : Nat
deriving DecidableEq

/-- The job added by `TaskScheduler._add_daily_task`. -/
def dailyJob : CronJob :=
  { id := "daily_update_check", day_of_week := none, hour := 9, minute := 0 }

/-- The job added by `TaskScheduler._add_weekly_task`. -/
def weeklyJob : CronJob :=
  { id := "weekly_update_check", day_of_week := some 0, hour := 9, minute := 0 }

/-- Cron semantics over wall-clock minutes, with minute 0 = Monday 00:00:
the job fires at minute `m` when the minute-of-day matches `hour:minute` and
(for a weekly job) the day-of-week matches. -/
def firesAt (j : CronJob) (m : Nat) : Bool :=
  (match j.day_of_week with
   | none => true
   | some d => decide ((m / 1440) % 7 = d)) &&
  decide (m % 1440 = j.hour * 60 + j.minute)

/-- Trace of one `TaskScheduler.start_scheduling` call with a task whose one
immediate run has the given outcome: the registered jobs, how many times the
task was invoked directly (line 51), whether the blocking
`scheduler.start()` loop was reached, and any exception that propagated out.
The direct invocation is not inside any try block, so a raise skips
`scheduler.start()` entirely. -/
structure StartTrace where
  jobs : List CronJob
  immediateRuns : Nat
  entered : Bool
  raisedOut : Option String
deriving DecidableEq

/-- `TaskScheduler.start_scheduling`: register the daily job when the
configured frequency is the string "daily", otherwise the weekly job; then
invoke the task once; then block dispatching triggers. -/
def startScheduling (frequency : String) (task : Except String Unit) :
    StartTrace :=
  let jobs := if frequency = "daily" then [dailyJob] else [weeklyJob]
  match task with
  | .ok _ => { jobs := jobs, immediateRuns := 1, entered := true, raisedOut := none }
  | .error e => { jobs := jobs, immediateRuns := 1, entered := false, raisedOut := some e }

/-- Outcome of one run of `scheduled_update_task`: what it printed and any
exception it let escape. -/
structure TaskResult where
  printed : String
  exn : Option String
deriving DecidableEq

/-- `scheduled_update_task` (main.py lines 140-157): the whole body (fetch all
subscriptions, process, filter, notify — abstracted here as an Except-valued
computation whose collaborator calls are the possible raisers) runs under
`try: ... except Exception as e: print(f"定时任务执行失败：...")`. -/
def scheduledUpdateTask (body : Except String String) : TaskResult :=
  match body with
  | .ok msg => { printed := msg, exn := none }
  | .error e => { printed := "定时任务执行失败：" ++ e ++ "\n", exn := none }

/-- A `TaskResult` seen as the task outcome handed to the scheduler. -/
def asTask (t : TaskResult) : Except String Unit :=
  match t.exn with
  | none => .ok ()
  | some e => .error e

/-! ## Concrete instances used to evaluate the theorems -/

/-- The filtered update list computed inside `_fetch_immediate_updates`. -/
def fetchFiltered (subs : List Subscription)
    (client : Subscription → RawUpdate) : List ProcessedUpdate :=
  filterEmptyUpdates (batchProcessUpdates (subs.map client))

/-- A collaborator set whose every call raises, exercising the
exception-to-string conversion of `execute`. -/
def throwingCollaborators : Collaborators where
  addSubscription := fun _ _ _ => .error "disk full"
  removeSubscription := fun _ _ => .error "disk full"
  getAllSubscriptions := .error "disk full"
  fetchRepoUpdates := fun _ => .error "disk full"
  batchProcess := fun _ => .error "disk full"
  filterEmpty := fun _ => .error "disk full"
  sendConsoleNotification := fun _ => .error "disk full"

/-- A sample stored subscription. -/
def witnessSub : Subscription := ⟨"octocat", "hello-world", ["commits"]⟩

/-- A client whose fetch yields zero events of every watched kind. -/
def emptyClient : Subscription → RawUpdate :=
  fun s => ⟨s.owner, s.repo, "t0", [("commits", [])]⟩

/-- A sample full command queue (ten pending commands). -/
def fullCommandQueue : List Command :=
  List.replicate 10 ⟨CommandType.help, none, none, none⟩

/-! # Theorems -/

/-- C1: with COMMAND_QUEUE already holding its ten-item capacity, the
enqueue attempt for one more parsed command ends in an uncaught exception
(the broken `except Queue.Full:` clause), not in the "queue full, retry
later" message the spec requires; and a parse-error report on a full
RESULT_QUEUE blocks the producer indefinitely (plain blocking `put`).  This
evaluates the code at the failing input of the code_bug verdict. -/
theorem claim1_queue_full_not_surfaced :
    inputListenerEnqueue fullCommandQueue ⟨CommandType.help, none, none, none⟩ =
      .uncaughtException ∧
    inputListenerEnqueue fullCommandQueue ⟨CommandType.help, none, none, none⟩ ≠
      .fullMessage ∧
    putBlocking (List.replicate 10 "busy") addUsageMsg = .blocked := by
  decide

/-- C2: `CommandHandler.execute` returns a string for every command and
every collaborator behavior — it never lets an exception propagate — and a
collaborator failure surfaces as the descriptive error string
`命令执行失败：<message>`. -/
theorem claim2_execute_never_raises (c : Collaborators) (cmd : Command) :
    (∃ s, execute c cmd = .ret s) ∧
    ∀ e, executeBody c cmd = .error e →
      execute c cmd = .ret ("命令执行失败：" ++ e) := by
  constructor
  · unfold execute
    cases executeBody c cmd with
    | ok s => exact ⟨s, rfl⟩
    | error e => exact ⟨"命令执行失败：" ++ e, rfl⟩
  · intro e he
    unfold execute
    rw [he]

/-- Witness for C2: a `list` command whose store access raises is answered
with the error string; nothing propagates. -/
theorem claim2_witness :
    execute throwingCollaborators ⟨CommandType.list, none, none, none⟩ =
      .ret ("命令执行失败：" ++ "disk full") :=
  (claim2_execute_never_raises throwingCollaborators
    ⟨CommandType.list, none, none, none⟩).2 "disk full" rfl

/-- C6: a `fetch` against an empty store returns the
"暂无订阅仓库，无法获取更新" message, contacts the GitHub client on no
subscription, and sends no notification — for every configured notification
channel and every client behavior. -/
theorem claim6_fetch_empty_store (ntype : String)
    (client : Subscription → RawUpdate) :
    fetchImmediateUpdates ntype [] client =
      ⟨"暂无订阅仓库，无法获取更新", [], []⟩ := rfl

/-- C9: removing an (owner, repo) pair that is not in the store reports
failure and performs no state change and no persistence write. -/
theorem claim9_remove_missing (s : List Subscription) (o r : String)
    (h : getSubscription s o r = none) :
    removeSubscription s o r = ⟨false, s, []⟩ := by
  unfold removeSubscription
  rw [h]

/-- Witness for C9 at a concrete store. -/
theorem claim9_witness :
    removeSubscription [witnessSub] "octocat" "other-repo" =
      ⟨false, [witnessSub], []⟩ :=
  claim9_remove_missing [witnessSub] "octocat" "other-repo" (by decide)

/-- C3 counterexample: the line `add a b c --events`, where `--events` is the
last token, does NOT yield a ParseError — it parses to an Add command (with
owner `a`, repo `b`, an empty events list, and the token `c` ignored), which
is then queued.  This refutes the claim that a line with `--events` last
always yields a ParseError. -/
theorem claim3_counterexample :
    parseInputLine "add a b c --events" =
      .cmd { type := .add, owner := some "a", repo := some "b",
             events := some [] } := by
  decide

/-- C3 amended: an `add` line parses to a command exactly when it has at
least five tokens and contains `--events` at token index ≥ 3; the resulting
command takes tokens 1 and 2 as owner and repo and everything after the
first `--events` as events — an empty list when `--events` is last.  A line
with fewer than five tokens or no `--events` marker yields the usage
ParseError, and one whose marker sits before index 3 yields the
missing-argument ParseError. -/
theorem claim3_amended (parts : List String) :
    (parseTokens ("add" :: parts) = parseAdd ("add" :: parts)) ∧
    ((∃ c, parseAdd parts = .cmd c) ↔
      (5 ≤ parts.length ∧ parts.contains "--events" = true ∧
       3 ≤ firstIdx parts "--events")) ∧
    (∀ c, parseAdd parts = .cmd c →
      c = { type := .add, owner := some (parts.getD 1 ""),
            repo := some (parts.getD 2 ""),
            events := some (parts.drop (firstIdx parts "--events" + 1)) }) ∧
    ((parts.length < 5 ∨ parts.contains "--events" = false) →
      parseAdd parts = .err addUsageMsg) ∧
    (5 ≤ parts.length → parts.contains "--events" = true →
      firstIdx parts "--events" < 3 → parseAdd parts = .err addMissingArgsMsg) := by
  refine ⟨rfl, ?_, ?_, ?_, ?_⟩
  · unfold parseAdd
    by_cases h1 : parts.length < 5 ∨ ¬ parts.contains "--events" = true
    · rw [if_pos h1]
      constructor
      · rintro ⟨c, hc⟩
        cases hc
      · rintro ⟨ha, hb, _⟩
        rcases h1 with h | h
        · omega
        · exact (h hb).elim
    · rw [if_neg h1]
      push_neg at h1
      by_cases h2 : firstIdx parts "--events" < 3
      · rw [if_pos h2]
        constructor
        · rintro ⟨c, hc⟩
          cases hc
        · rintro ⟨_, _, h3⟩
          omega
      · rw [if_neg h2]
        constructor
        · intro _
          exact ⟨by omega, h1.2, by omega⟩
        · intro _
          exact ⟨_, rfl⟩
  · intro c hc
    unfold parseAdd at hc
    by_cases h1 : parts.length < 5 ∨ ¬ parts.contains "--events" = true
    · rw [if_pos h1] at hc
      cases hc
    · rw [if_neg h1] at hc
      by_cases h2 : firstIdx parts "--events" < 3
      · rw [if_pos h2] at hc
        cases hc
      · rw [if_neg h2] at hc
        injection hc with h
        exact h.symm
  · intro h
    unfold parseAdd
    rcases h with h | h
    · rw [if_pos (Or.inl h)]
    · rw [if_pos (Or.inr (by rw [h]; simp))]
  · intro h1 h2 h3
    unfold parseAdd
    rw [if_neg (by push_neg; exact ⟨by omega, h2⟩), if_pos h3]

/-- Witness for C3 amended: the minimal well-formed add line produces the
described command. -/
theorem claim3_witness :
    (⟨CommandType.add, some "o", some "r", some ["commits"]⟩ : Command) =
      { type := .add,
        owner := some ((["add", "o", "r", "--events", "commits"]).getD 1 ""),
        repo := some ((["add", "o", "r", "--events", "commits"]).getD 2 ""),
        events := some ((["add", "o", "r", "--events", "commits"]).drop
          (firstIdx ["add", "o", "r", "--events", "commits"] "--events" + 1)) } :=
  (claim3_amended ["add", "o", "r", "--events", "commits"]).2.2.1
    ⟨CommandType.add, some "o", some "r", some ["commits"]⟩ (by decide)

/-- C4 counterexample: `start_scheduling` runs the supplied task once outside
any try block, so a task function whose immediate run raises terminates
`start_scheduling` before the blocking trigger loop is ever entered — the
failure is not caught and no later scheduled run can fire.  This refutes the
claim for an arbitrary task function. -/
theorem claim4_counterexample :
    (startScheduling "daily" (Except.error "boom")).entered = false ∧
    (startScheduling "daily" (Except.error "boom")).raisedOut = some "boom" ∧
    (startScheduling "daily" (Except.error "boom")).immediateRuns = 1 := by
  decide

/-- C4 amended: the task function the program actually passes,
`scheduled_update_task`, wraps its whole body in try/except, so for every
body outcome it raises nothing, any failure is reported as the
`定时任务执行失败：...` message, and the scheduler always reaches its
blocking trigger loop; the scheduler itself, however, does not guard the
immediate first invocation of an arbitrary raising task. -/
theorem claim4_amended (freq : String) (body : Except String String) :
    (scheduledUpdateTask body).exn = none ∧
    (startScheduling freq (asTask (scheduledUpdateTask body))).entered = true ∧
    (∀ e, body = .error e →
      (scheduledUpdateTask body).printed = "定时任务执行失败：" ++ e ++ "\n") := by
  refine ⟨?_, ?_, ?_⟩
  · cases body <;> rfl
  · cases body <;> rfl
  · intro e he
    rw [he]
    rfl

/-- Witness for C4 amended at a concrete failing body. -/
theorem claim4_witness :
    (scheduledUpdateTask (Except.error "boom")).exn = none ∧
    (startScheduling "daily"
        (asTask (scheduledUpdateTask (Except.error "boom")))).entered = true ∧
    (scheduledUpdateTask (Except.error "boom")).printed =
      "定时任务执行失败：" ++ "boom" ++ "\n" :=
  ⟨(claim4_amended "daily" (Except.error "boom")).1,
   (claim4_amended "daily" (Except.error "boom")).2.1,
   (claim4_amended "daily" (Except.error "boom")).2.2 "boom" rfl⟩

/-- C5 counterexample: start the scheduler with frequency daily at minute 480
(a Monday 08:00).  The immediate run happens at 480, and the registered cron
trigger `hour=9, minute=0` fires at minute 540 — one hour later, well inside
the claimed 24-hour quiet period. -/
theorem claim5_counterexample :
    (startScheduling "daily" (Except.ok ())).jobs = [dailyJob] ∧
    (startScheduling "daily" (Except.ok ())).immediateRuns = 1 ∧
    firesAt dailyJob 540 = true ∧ 480 < 540 ∧ 540 < 480 + 1440 := by
  decide

/-- C5 amended: `start_scheduling` invokes the task exactly once immediately,
enters the blocking dispatch loop exactly when that run does not raise, and
registers exactly one trigger — the daily 09:00 cron job for frequency
"daily" and the weekly Monday-09:00 cron job for any other frequency.  The
daily trigger fires exactly at minutes ≡ 09:00 (mod 24 h) and the weekly one
exactly at minutes ≡ Monday 09:00 (mod 7 days); hence successive daily
firings are 24 h apart and, after the immediate run, the next firing comes
at the next 09:00 — at most 24 h later, possibly much sooner. -/
theorem claim5_amended (freq : String) (task : Except String Unit)
    (m mstart : Nat) :
    (startScheduling freq task).immediateRuns = 1 ∧
    ((startScheduling freq task).entered = true ↔ task = Except.ok ()) ∧
    (freq = "daily" → (startScheduling freq task).jobs = [dailyJob]) ∧
    (freq ≠ "daily" → (startScheduling freq task).jobs = [weeklyJob]) ∧
    (firesAt dailyJob m = true ↔ m % 1440 = 540) ∧
    (firesAt weeklyJob m = true ↔ m % 10080 = 540) ∧
    (firesAt dailyJob mstart = true → firesAt dailyJob (mstart + 1440) = true ∧
      ∀ k, mstart < k → k < mstart + 1440 → firesAt dailyJob k = false) ∧
    (∃ k, mstart < k ∧ k ≤ mstart + 1440 ∧ firesAt dailyJob k = true) := by
  have hd : ∀ n : Nat, firesAt dailyJob n = true ↔ n % 1440 = 540 := by
    intro n
    simp [firesAt, dailyJob]
  refine ⟨?_, ?_, ?_, ?_, hd m, ?_, ?_, ?_⟩
  · cases task <;> rfl
  · cases task with
    | ok a => simp [startScheduling]
    | error e => simp [startScheduling]
  · intro h
    cases task <;> simp [startScheduling, h]
  · intro h
    cases task <;> simp [startScheduling, h]
  · simp only [firesAt, weeklyJob, Bool.and_eq_true, decide_eq_true_eq]
    omega
  · intro hs
    rw [hd] at hs
    constructor
    · rw [hd]
      omega
    · intro k hk1 hk2
      cases hfk : firesAt dailyJob k with
      | false => rfl
      | true =>
        rw [hd] at hfk
        omega
  · refine ⟨1440 * (mstart / 1440) + (if mstart % 1440 < 540 then 540 else 1980),
      ?_, ?_, ?_⟩
    · split <;> omega
    · split <;> omega
    · rw [hd]
      split <;> omega

/-- Witness for C5 amended at concrete inputs. -/
theorem claim5_witness :
    (startScheduling "daily" (Except.ok ())).jobs = [dailyJob] ∧
    (startScheduling "weekly" (Except.ok ())).jobs = [weeklyJob] ∧
    (firesAt dailyJob 540 = true ↔ 540 % 1440 = 540) ∧
    (startScheduling "daily" (Except.ok ())).immediateRuns = 1 :=
  ⟨(claim5_amended "daily" (Except.ok ()) 0 0).2.2.1 rfl,
   (claim5_amended "weekly" (Except.ok ()) 0 0).2.2.2.1 (by decide),
   (claim5_amended "daily" (Except.ok ()) 540 0).2.2.2.2.1,
   (claim5_amended "daily" (Except.ok ()) 0 0).1⟩

/-- C7: a `fetch` against a non-empty store: when the filtered update list is
empty the notifier is never invoked and the summary reports no updates; when
it is non-empty exactly one notification goes out, through the console
channel with the filtered list, and the summary reports how many
repositories updated — and the whole trace is independent of the configured
notification channel. -/
theorem claim7_fetch_nonempty (ntype : String) (subs : List Subscription)
    (client : Subscription → RawUpdate) (h : subs ≠ []) :
    (fetchFiltered subs client = [] →
      (fetchImmediateUpdates ntype subs client).notifications = [] ∧
      (fetchImmediateUpdates ntype subs client).message =
        "正在获取 " ++ toString subs.length ++
          " 个仓库的更新...\n更新检查完成：未检测到任何仓库的更新") ∧
    (fetchFiltered subs client ≠ [] →
      (fetchImmediateUpdates ntype subs client).notifications =
        [("console", fetchFiltered subs client)] ∧
      (fetchImmediateUpdates ntype subs client).message =
        "正在获取 " ++ toString subs.length ++
          " 个仓库的更新...\n更新检查完成：" ++
          toString (fetchFiltered subs client).length ++
          " 个仓库有更新（已在终端显示）") ∧
    fetchImmediateUpdates ntype subs client =
      fetchImmediateUpdates "console" subs client := by
  cases subs with
  | nil => exact absurd rfl h
  | cons a l =>
    simp only [fetchImmediateUpdates, fetchFiltered]
    generalize filterEmptyUpdates (batchProcessUpdates (List.map client (a :: l))) = F
    cases F with
    | nil => exact ⟨fun _ => ⟨rfl, rfl⟩, fun hcon => absurd rfl hcon, trivial⟩
    | cons p ps =>
      exact ⟨fun hcon => absurd hcon (List.cons_ne_nil p ps),
        fun _ => ⟨rfl, rfl⟩, trivial⟩

/-- Witness for C7: one stored subscription whose fetch yields zero events of
every kind — the filtered set is empty, no notification is sent, and the
summary reports that nothing updated; the configured channel ("email" here)
is irrelevant. -/
theorem claim7_witness :
    (fetchImmediateUpdates "email" [witnessSub] emptyClient).notifications = [] ∧
    (fetchImmediateUpdates "email" [witnessSub] emptyClient).message =
      "正在获取 " ++ toString ([witnessSub].length) ++
        " 个仓库的更新...\n更新检查完成：未检测到任何仓库的更新" :=
  (claim7_fetch_nonempty "email" [witnessSub] emptyClient (by decide)).1 (by decide)

/-- A present key with pairwise-distinct keys is stored exactly once. -/
theorem countKey_of_present (s : List Subscription) (o r : String)
    (sub : Subscription) (h : getSubscription s o r = some sub)
    (hp : List.Pairwise keyDistinct s) : countKey s o r = 1 := by
  induction s with
  | nil => simp [getSubscription] at h
  | cons x xs ih =>
    rw [getSubscription, List.find?] at h
    rcases List.pairwise_cons.mp hp with ⟨hx_dist, hp_tail⟩
    cases hx : (x.owner == o && x.repo == r) with
    | true =>
      rw [hx] at h
      have hxo : x.owner = o ∧ x.repo = r := by
        have hx' := hx
        simp only [Bool.and_eq_true, beq_iff_eq] at hx'
        exact hx'
      have hrest : ∀ y ∈ xs, ¬((y.owner == o && y.repo == r) = true) := by
        intro y hy hcon
        simp only [Bool.and_eq_true, beq_iff_eq] at hcon
        exact hx_dist y hy ⟨hxo.1.trans hcon.1.symm, hxo.2.trans hcon.2.symm⟩
      rw [countKey,
        @List.filter_cons_of_pos _ (fun s => s.owner == o && s.repo == r) x xs hx,
        List.filter_eq_nil_iff.mpr hrest]
      rfl
    | false =>
      rw [hx] at h
      rw [countKey,
        @List.filter_cons_of_neg _ (fun s => s.owner == o && s.repo == r) x xs
          (by simp [hx])]
      exact ih h hp_tail

/-- Adding an already-stored key always fails with no state change and no
persistence write. -/
theorem addSubscription_of_present (s : List Subscription) (o r : String)
    (ev : List String) (sub : Subscription)
    (h : getSubscription s o r = some sub) :
    addSubscription s o r ev = ⟨false, s, []⟩ := by
  have hsome : (getSubscription s o r).isSome = true := by rw [h]; rfl
  unfold addSubscription
  cases hb : (ev.all fun e => validEvents.contains e) with
  | false => rfl
  | true =>
    rw [if_neg (by simp [hb]), if_pos hsome]

/-- C8: a second add of an (owner, repo) pair already in the store reports
failure, performs no state change and no persistence write, and — whenever
the store satisfies the key-uniqueness invariant — the key stays stored
exactly once (no duplicate is ever created). -/
theorem claim8_duplicate_add (s : List Subscription) (o r : String)
    (ev : List String) (sub : Subscription)
    (h : getSubscription s o r = some sub) :
    addSubscription s o r ev = ⟨false, s, []⟩ ∧
    (List.Pairwise keyDistinct s →
      countKey (addSubscription s o r ev).subs o r = 1) := by
  have hadd := addSubscription_of_present s o r ev sub h
  refine ⟨hadd, fun hp => ?_⟩
  rw [hadd]
  exact countKey_of_present s o r sub h hp

/-- Witness for C8 at a concrete one-entry store. -/
theorem claim8_witness :
    addSubscription [witnessSub] "octocat" "hello-world" ["issues"] =
      ⟨false, [witnessSub], []⟩ ∧
    countKey (addSubscription [witnessSub] "octocat" "hello-world"
      ["issues"]).subs "octocat" "hello-world" = 1 := by
  have h := claim8_duplicate_add [witnessSub] "octocat" "hello-world"
    ["issues"] witnessSub (by decide)
  exact ⟨h.1, h.2 (by simp [List.pairwise_singleton])⟩

/-- `add_subscription` preserves the store invariant. -/
theorem validStore_add (s : List Subscription) (o r : String)
    (ev : List String) (h : ValidStore s) :
    ValidStore (addSubscription s o r ev).subs := by
  unfold addSubscription
  cases hb : (ev.all fun e => validEvents.contains e) with
  | false => exact h
  | true =>
    rw [if_neg (by simp [hb])]
    cases hgs : getSubscription s o r with
    | some sub =>
      rw [if_pos (show (some sub).isSome = true from rfl)]
      exact h
    | none =>
      rw [if_neg (by simp)]
      obtain ⟨hval, hpw⟩ := h
      constructor
      · intro sub hsub e he
        rcases List.mem_append.mp hsub with h1 | h2
        · exact hval sub h1 e he
        · have hs2 : sub = ⟨o, r, ev⟩ := by simpa using h2
          subst hs2
          have := List.all_eq_true.mp hb e he
          simpa using this
      · rw [List.pairwise_append]
        refine ⟨hpw, List.pairwise_singleton _ _, ?_⟩
        intro a ha b hb'
        have hb2 : b = ⟨o, r, ev⟩ := by simpa using hb'
        subst hb2
        rintro ⟨h1, h2⟩
        have hnone := List.find?_eq_none.mp hgs a ha
        exact hnone (by simp [beq_iff_eq, h1, h2])

/-- `removeFirst` yields a sublist. -/
theorem removeFirst_sublist (s : List Subscription) (t : Subscription) :
    List.Sublist (removeFirst s t) s := by
  induction s with
  | nil => exact List.Sublist.refl _
  | cons x xs ih =>
    unfold removeFirst
    by_cases hx : x = t
    · rw [if_pos hx]
      exact List.sublist_cons_self x xs
    · rw [if_neg hx]
      exact List.Sublist.cons₂ x ih

/-- `remove_subscription` preserves the store invariant. -/
theorem validStore_remove (s : List Subscription) (o r : String)
    (h : ValidStore s) : ValidStore (removeSubscription s o r).subs := by
  unfold removeSubscription
  cases hgs : getSubscription s o r with
  | none => exact h
  | some sub =>
    obtain ⟨hval, hpw⟩ := h
    have hsub := removeFirst_sublist s sub
    exact ⟨fun x hx e he => hval x (hsub.subset hx) e he, hpw.sublist hsub⟩

/-- `update_subscription_events` never changes the stored list (the success
path mutates only the copy that `get_subscription` returned). -/
theorem updateSubscriptionEvents_subs (s : List Subscription) (o r : String)
    (ev : List String) : (updateSubscriptionEvents s o r ev).subs = s := by
  unfold updateSubscriptionEvents
  cases getSubscription s o r with
  | none => rfl
  | some sub =>
    by_cases hb : (!(ev.all fun e => validEvents.contains e)) = true
    · rw [if_pos hb]
    · rw [if_neg hb]

/-- Every single SubscriptionManager operation preserves the invariant. -/
theorem validStore_applyOp (s : List Subscription) (op : SMOp)
    (h : ValidStore s) : ValidStore (applyOp s op) := by
  cases op with
  | add o r ev => exact validStore_add s o r ev h
  | remove o r => exact validStore_remove s o r h
  | update o r ev =>
    rw [applyOp, updateSubscriptionEvents_subs]
    exact h

/-- C10: from a valid initial state every reachable store state keeps all
watch events inside the closed valid-event set and all (owner, repo) keys
pairwise distinct; moreover `add_subscription` and
`update_subscription_events` reject — returning false with no state change
and no persistence write — any call carrying an event outside the closed
set, and `add_subscription` equally rejects a key already stored. -/
theorem claim10_store_invariant (ops : List SMOp) (s0 : List Subscription)
    (h : ValidStore s0) :
    ValidStore (runOps s0 ops) ∧
    (∀ (s : List Subscription) (o r : String) (ev : List String),
      (∃ e ∈ ev, e ∉ validEvents) →
      addSubscription s o r ev = ⟨false, s, []⟩ ∧
      updateSubscriptionEvents s o r ev = ⟨false, s, []⟩) ∧
    (∀ (s : List Subscription) (o r : String) (ev : List String)
      (sub : Subscription), getSubscription s o r = some sub →
      addSubscription s o r ev = ⟨false, s, []⟩) := by
  refine ⟨?_, ?_, ?_⟩
  · induction ops generalizing s0 with
    | nil => exact h
    | cons op ops ih => exact ih (applyOp s0 op) (validStore_applyOp s0 op h)
  · rintro s o r ev ⟨e, he, hne⟩
    have hall : (ev.all fun e => validEvents.contains e) = false := by
      cases hb : (ev.all fun e => validEvents.contains e) with
      | false => rfl
      | true =>
        have := List.all_eq_true.mp hb e he
        exact absurd (by simpa using this) hne
    constructor
    · unfold addSubscription
      rw [if_pos (by rw [hall]; rfl)]
    · unfold updateSubscriptionEvents
      cases getSubscription s o r with
      | none => rfl
      | some sub => rw [if_pos (by rw [hall]; rfl)]
  · intro s o r ev sub hgs
    exact addSubscription_of_present s o r ev sub hgs

/-- Witness for C10 at a concrete operation sequence and concrete rejected
calls. -/
theorem claim10_witness :
    ValidStore (runOps [] [SMOp.add "octocat" "hello-world" ["commits"]]) ∧
    addSubscription [] "o" "r" ["stars"] = ⟨false, [], []⟩ ∧
    updateSubscriptionEvents [witnessSub] "octocat" "hello-world" ["stars"] =
      ⟨false, [witnessSub], []⟩ := by
  have h := claim10_store_invariant [SMOp.add "octocat" "hello-world" ["commits"]]
    [] ⟨fun _ hs => absurd hs (List.not_mem_nil _), List.Pairwise.nil⟩
  refine ⟨h.1, (h.2.1 [] "o" "r" ["stars"] ⟨"stars", by simp, by decide⟩).1, ?_⟩
  exact (h.2.1 [witnessSub] "octocat" "hello-world" ["stars"]
    ⟨"stars", by simp, by decide⟩).2

end Sentinel
